import Mathlib

/-!
Shallow embedding of the economics-paper classification pipeline
(src/classify.py, src/classify2.py, src/classify3.py, src/classify4.py,
src/main.py, src/papers.py) together with theorems settling the spec
claims about it.

Conventions of the embedding:
  - a Python dict mapping strings to lists of strings (a raw candidate
    classification, as produced by json.loads) is an association list
    `List (String × List String)`; `dict.get(k, [])` is `pyGet`;
  - Python sets of strings are `Finset String`; the final `list(v)`
    conversion in merge_classifications enumerates a set in an
    implementation-defined order, so the merged result is kept at the
    set level, keyed by the same three category names;
  - network and filesystem effects are passed in as explicit data:
    an HTTP attempt either yields a status code and a message content
    string, or raises a requests exception; json.loads is an explicit
    parameter of type `String → Option Candidate` where `none` models
    a JSONDecodeError;
  - uncaught Python exceptions are `none` in an `Option` result.
-/

set_option autoImplicit false

namespace EconPipeline

/-- Raw candidate classification: a Python dict from category names to
lists of label strings, as returned by json.loads in the source. -/
abbrev Candidate := List (String × List String)

/-- Embeds Python `c.get(k, [])` on a candidate dict (src/classify.py
lines 88 to 90). -/
def pyGet (c : Candidate) (k : String) : List String :=
  (c.lookup k).getD []

/-- The mutable `merged` dict of merge_classifications while the loop of
src/classify.py lines 87 to 90 runs: three Python sets of labels. -/
@[ext]
structure MergedSets where
  methodology : Finset String
  field : Finset String
  empirical_approach : Finset String
  deriving DecidableEq

/-- One iteration of the loop in merge_classifications
(src/classify.py lines 87 to 90): update each category set with the
labels the candidate holds under that key, missing keys defaulting to
the empty list. -/
def stepMerge (m : MergedSets) (c : Candidate) : MergedSets :=
  { methodology := m.methodology ∪ (pyGet c "methodology").toFinset
    field := m.field ∪ (pyGet c "field").toFinset
    empirical_approach := m.empirical_approach ∪ (pyGet c "empirical_approach").toFinset }

/-- Embeds merge_classifications (src/classify.py lines 85 to 91):
start from three empty sets, fold the update loop over the candidate
list, and return the dict with exactly the three category keys.  The
Python `list(v)` enumeration order is implementation defined, so each
value is kept as the set it enumerates. -/
def merge_classifications (cl : List Candidate) : List (String × Finset String) :=
  let merged := cl.foldl stepMerge ⟨∅, ∅, ∅⟩
  [("methodology", merged.methodology),
   ("field", merged.field),
   ("empirical_approach", merged.empirical_approach)]

/-- Looks a category up in a merged result, defaulting to the empty set. -/
def mergedCategory (cl : List Candidate) (k : String) : Finset String :=
  ((merge_classifications cl).lookup k).getD ∅

/-- The three category keys of the merged dict, in the order the source
creates them (src/classify.py line 86). -/
def threeCats : List String := ["methodology", "field", "empirical_approach"]

/-- Allowed methodology labels (src/classify4.py line 17, identical to
`methods` in src/classify.py line 13). -/
def METHODS : List String := ["Econometrics", "Empirical", "Macro", "Theory"]

/-- Allowed field labels (src/classify4.py lines 18 to 22, identical to
`fields` in src/classify.py lines 14 to 15). -/
def FIELDS : List String :=
  ["Behavioral", "Development", "Econometrics", "Experimental",
   "Finance", "Industrial Organization", "Labor",
   "Macro", "Public", "Theory", "Trade"]

/-- Allowed empirical approach labels (src/classify4.py lines 23 to 27). -/
def APPROACHES : List String :=
  ["Descriptive/Observational", "Event Study", "Lab Experiment",
   "RCT", "Regression Discontinuity", "Structural Model Estimation",
   "Synthetic Control", "Other"]

/-- Restriction of a candidate dict to the three category keys, each
missing key replaced by the empty list.  Used to state that
merge_classifications reads nothing else of a candidate. -/
def restrictCand (c : Candidate) : Candidate :=
  [("methodology", pyGet c "methodology"),
   ("field", pyGet c "field"),
   ("empirical_approach", pyGet c "empirical_approach")]

/-- A raw candidate carrying a label outside the field vocabulary,
used as concrete input for the vocabulary claims. -/
def badFieldCand : Candidate := [("field", ["Bad-Label"])]

/-- Accumulator pass behind `pyWords`: `cur` holds the reversed
characters of the word being read. -/
def splitWSAux : List Char → List Char → List (List Char)
  | cur, [] => if cur.isEmpty then [] else [cur.reverse]
  | cur, c :: rest =>
    if c.isWhitespace then
      if cur.isEmpty then splitWSAux [] rest else cur.reverse :: splitWSAux [] rest
    else splitWSAux (c :: cur) rest

/-- Embeds Python `text.split()` (src/classify.py line 78): split on
runs of whitespace, dropping empty pieces, so leading, trailing and
repeated whitespace never yields an empty word. -/
def pyWords (s : String) : List String :=
  (splitWSAux [] s.data).map String.mk

/-- Embeds Python `sep.join(xs)` (used at src/classify.py lines 71 and
80): the empty string on an empty list, otherwise the pieces
interleaved with the separator. -/
def pyJoin (sep : String) : List String → String
  | [] => ""
  | x :: rest => rest.foldl (fun acc y => acc ++ sep ++ y) x

/-- Fuelled recursion behind `chunksOf`; with fuel at least the length
of the list it peels exactly the groups `l.take n`, `(l.drop n).take n`
and so on.  The fuel only makes the recursion structural. -/
def chunksOfAux {α : Type} (n : Nat) : Nat → List α → List (List α)
  | _, [] => []
  | 0, _ :: _ => []
  | fuel + 1, x :: xs => (x :: xs).take n :: chunksOfAux n fuel ((x :: xs).drop n)

/-- Embeds the stepping of `range(0, len(words), n)` together with the
slices `words[i:i+n]` (src/classify.py lines 79 to 80): consecutive
non-overlapping groups of `n` elements, the last group possibly
shorter.  The source never runs this with `n = 0` (Python range would
raise); the embedding returns no groups in that case. -/
def chunksOf {α : Type} (n : Nat) (l : List α) : List (List α) :=
  if n = 0 then [] else chunksOfAux n l.length l

/-- Embeds chunk_text (src/classify.py lines 77 to 80): split the text
into whitespace-delimited words and emit each group of `n` words
joined back with single spaces.  The source default chunk size is
1500. -/
def chunk_text (text : String) (n : Nat := 1500) : List String :=
  (chunksOf n (pyWords text)).map (pyJoin " ")

/-- Occurrence of `needle` as a contiguous substring of `hay`,
embedding the Python `in` operator on strings. -/
def containsSub (needle : List Char) : List Char → Bool
  | [] => needle.isEmpty
  | c :: rest => needle.isPrefixOf (c :: rest) || containsSub needle rest

/-- Embeds Python `marker in l.lower()` (src/classify.py lines 55, 56
and 66): the marker occurs as a contiguous substring of the lowercased
line.  The markers in the source are ASCII, so lowercasing by
`Char.toLower` matches Python `str.lower()` on every input the claims
touch. -/
def lineHas (marker l : String) : Bool :=
  containsSub marker.data (l.data.map Char.toLower)

/-- Embeds `next(i for i, l in enumerate(lines) if marker in l.lower())`
(src/classify.py lines 55, 56 and 66): index of the first matching
line, `none` when the generator raises StopIteration. -/
def findMarkerIdx (marker : String) (lines : List String) : Option Nat :=
  lines.findIdx? (lineHas marker)

/-- Embeds the section selection of extract_pdf_sections
(src/classify.py lines 51 to 71) at the level of the line list:
abstract lines are `lines[abstract_start+1:intro_start]` when both the
abstract and the introduction markers are found and `lines[:50]`
otherwise, the introduction part is always `lines[:200]`, and the
conclusion part is `lines[conclusion_start:]` when its marker is
found and `lines[-50:]` otherwise. -/
def extract_section_lines (lines : List String) : List String :=
  let abstractLines :=
    match findMarkerIdx "abstract" lines, findMarkerIdx "introduction" lines with
    | some a, some i => (lines.drop (a + 1)).take (i - (a + 1))
    | _, _ => lines.take 50
  let introLines := lines.take 200
  let conclusionLines :=
    match findMarkerIdx "conclusion" lines with
    | some c => lines.drop c
    | none => lines.drop (lines.length - 50)
  abstractLines ++ introLines ++ conclusionLines

/-- Embeds the return value of extract_pdf_sections (src/classify.py
lines 71 to 72): the selected lines joined with newlines. -/
def extract_pdf_sections (lines : List String) : String :=
  pyJoin "\n" (extract_section_lines lines)

/-- Embeds the page loop of extract_pdf_sections (src/classify.py
lines 45 to 49): append each non-empty page text followed by a
newline.  A `None` or empty extraction result is the empty string
here. -/
def buildText (pages : List String) : String :=
  pages.foldl (fun acc pg => if pg = "" then acc else acc ++ pg ++ "\n") ""

/-- Accumulator pass behind `pySplitlines`: split at every newline
character, keeping empty pieces. -/
def splitNLAux : List Char → List Char → List (List Char)
  | cur, [] => [cur.reverse]
  | cur, c :: rest =>
    if c = '\n' then cur.reverse :: splitNLAux [] rest
    else splitNLAux (c :: cur) rest

/-- Embeds Python `text.splitlines()` (src/classify.py line 51) for
newline-separated text: like splitting on every newline, except that a
trailing newline produces no trailing empty line and the empty string
has no lines. -/
def pySplitlines (s : String) : List String :=
  let parts := splitNLAux [] s.data
  (if parts.getLast? = some [] then parts.dropLast else parts).map String.mk

/-- The concrete 500-line input of the section-extraction scenario: an
abstract marker on line 0, the introduction marker on line 40, the
conclusion marker on line 300, every other line empty. -/
def cexLines : List String :=
  (List.range 500).map (fun i =>
    if i = 0 then "Abstract"
    else if i = 40 then "Introduction"
    else if i = 300 then "Conclusion"
    else "")

/-- One attempt of `requests.post` against the model service: either a
response with its HTTP status code and the extracted message content
`r.json()["choices"][0]["message"]["content"]`, or a raised
requests.RequestException. -/
inductive HttpResult where
  | ok (status : Nat) (content : String)
  | exn
  deriving DecidableEq

/-- Response attempts the retry loop of call_groq treats as throttling
(src/classify4.py line 61, src/classify3.py line 48): an HTTP response
with status 429. -/
def isThrottle : HttpResult → Bool
  | .ok status _ => status == 429
  | .exn => false

/-- Embeds `raise_for_status` (src/classify.py line 128, classify3 line
52, classify4 line 65): requests raises an HTTPError exactly for
status codes in [400, 600). -/
def raisesForStatus (status : Nat) : Prop := 400 ≤ status ∧ status < 600

instance (status : Nat) : Decidable (raisesForStatus status) :=
  inferInstanceAs (Decidable (_ ∧ _))

/-- The three backtick characters of a Markdown code fence. -/
def fenceChars : List Char := "```".data

/-- Scans for the next code fence in a character list and returns the
remainder after it, or `none` when no fence occurs.  This is the
search for the closing fence of the regex `(three backticks) .*?
(three backticks)` with DOTALL used in src/classify3.py line 54 and
src/classify4.py line 71. -/
def dropThroughFence : List Char → Option (List Char)
  | [] => none
  | c :: rest =>
    if fenceChars.isPrefixOf (c :: rest) then some ((c :: rest).drop 3)
    else dropThroughFence rest

/-- Length bound needed to show fence-block stripping terminates. -/
theorem dropThroughFence_length :
    ∀ (l r : List Char), dropThroughFence l = some r → r.length ≤ l.length := by
  intro l
  induction l with
  | nil => intro r h; simp [dropThroughFence] at h
  | cons c rest ih =>
    intro r h
    rw [dropThroughFence] at h
    by_cases hp : fenceChars.isPrefixOf (c :: rest) = true
    · simp only [hp, if_true] at h
      cases h
      simp only [List.length_drop, List.length_cons]
      omega
    · simp only [hp, if_false, Bool.false_eq_true] at h
      have := ih r h
      simp only [List.length_cons]
      omega

/-- Embeds `re.sub` with pattern `(three backticks) .*? (three
backticks)` and DOTALL (src/classify3.py line 54, src/classify4.py
line 71): repeatedly delete the leftmost shortest fenced block; an
opening fence without a closing one is left in place. -/
def stripFenceBlocks : List Char → List Char
  | [] => []
  | c :: rest =>
    if fenceChars.isPrefixOf (c :: rest) then
      match h : dropThroughFence ((c :: rest).drop 3) with
      | some remaining => stripFenceBlocks remaining
      | none => c :: rest
    else c :: stripFenceBlocks rest
termination_by l => l.length
decreasing_by
  · have := dropThroughFence_length _ _ h
    simp only [List.length_drop, List.length_cons] at *
    omega
  · simp only [List.length_cons]
    omega

/-- The content clean-up of call_groq in src/classify3.py lines 54 and
src/classify4.py line 71: delete fenced blocks, then Python strip. -/
def stripContent4 (s : String) : String :=
  (String.mk (stripFenceBlocks s.data)).trim

/-- The content clean-up of classify_chunk (src/classify.py lines 130
to 137): strip the content, and when it both starts and ends with a
fence, drop the first and last of its newline-split lines, re-join,
strip, and remove a leading case-insensitive "json" tag. -/
def stripContentPy (content : String) : String :=
  let t := content.trim
  if t.startsWith "```" && t.endsWith "```" then
    let inner := ((t.splitOn "\n").drop 1).dropLast
    let t2 := (pyJoin "\n" inner).trim
    if t2.toLower.startsWith "json" then (t2.drop 4).trim else t2
  else t

/-- The all-empty candidate `{"methodology": [], "field": [],
"empirical_approach": []}` returned by classify_chunk on any failure
(src/classify.py line 142) and by classify_paper on a failed download
(src/classify.py line 157). -/
def emptyC : Candidate :=
  [("methodology", []), ("field", []), ("empirical_approach", [])]

/-- The default-label candidate returned by call_groq on a
requests.RequestException (src/classify4.py lines 81 to 85,
src/classify3.py lines 64 to 68) and by call_groq of classify3 on a
JSONDecodeError (src/classify3.py lines 57 to 61). -/
def groqDefaults : Candidate :=
  [("methodology", ["Empirical"]),
   ("field", ["Public"]),
   ("empirical_approach", ["Descriptive/Observational"])]

/-- The candidate `{"methodology": ["Error"], "field": ["Error"],
"empirical_approach": ["Error"]}` returned by call_groq of classify4
on a JSONDecodeError (src/classify4.py lines 73 to 78). -/
def errorSentinel : Candidate :=
  [("methodology", ["Error"]),
   ("field", ["Error"]),
   ("empirical_approach", ["Error"])]

/-- Embeds classify_chunk of src/classify.py lines 118 to 142, given
the json.loads behaviour `parse` and the outcome of its single HTTP
attempt.  The broad `except Exception` turns a raised request error, a
failing `raise_for_status` and a JSONDecodeError alike into the
all-empty candidate. -/
def classify_chunk (parse : String → Option Candidate) (r : HttpResult) : Candidate :=
  match r with
  | .exn => emptyC
  | .ok status content =>
    if raisesForStatus status then emptyC
    else
      match parse (stripContentPy content) with
      | some c => c
      | none => emptyC

/-- Embeds call_groq of src/classify4.py lines 45 to 85 over the list
of successive HTTP attempts: a 429 response sleeps 10 seconds and
retries with the next attempt, any other HTTP error status and any
raised request error return the default-label candidate, a
JSONDecodeError returns the Error sentinel, and a parsed body is
returned as is.  The result pairs the total seconds slept with the
returned candidate; `none` means every provided attempt was throttled
and the loop is still running. -/
def call_groq4 (parse : String → Option Candidate) : List HttpResult → Option (Nat × Candidate)
  | [] => none
  | .exn :: _ => some (0, groqDefaults)
  | .ok status content :: rest =>
    if status = 429 then
      (call_groq4 parse rest).map (fun p => (p.1 + 10, p.2))
    else if raisesForStatus status then some (0, groqDefaults)
    else
      match parse (stripContent4 content) with
      | some c => some (0, c)
      | none => some (0, errorSentinel)

/-- Embeds call_groq of src/classify3.py lines 38 to 68: identical to
the classify4 variant except that a JSONDecodeError also returns the
default-label candidate. -/
def call_groq3 (parse : String → Option Candidate) : List HttpResult → Option (Nat × Candidate)
  | [] => none
  | .exn :: _ => some (0, groqDefaults)
  | .ok status content :: rest =>
    if status = 429 then
      (call_groq3 parse rest).map (fun p => (p.1 + 10, p.2))
    else if raisesForStatus status then some (0, groqDefaults)
    else
      match parse (stripContent4 content) with
      | some c => some (0, c)
      | none => some (0, groqDefaults)

/-- Embeds the URL check of classify_paper (src/classify.py line 150):
the pdf locator is treated as remote exactly when it starts with an
http or https scheme. -/
def isUrl (s : String) : Bool :=
  "http://".data.isPrefixOf s.data || "https://".data.isPrefixOf s.data

/-- The external effects one run of classify_paper (src/classify.py
lines 147 to 169) can observe: the pdf locator string, whether
download_pdf would succeed, the page texts PdfReader would extract
(`none` when opening or reading the pdf raises), the HTTP attempt
answering the request for each successive chunk, and the json.loads
behaviour. -/
structure PaperRun where
  pdfPath : String
  fetchOk : Bool
  pages : Option (List String)
  net : Nat → HttpResult
  parse : String → Option Candidate

/-- The merged-result value of the all-empty dict `{"methodology": [],
"field": [], "empirical_approach": []}` classify_paper returns when
the download fails (src/classify.py line 157). -/
def emptyMerged : List (String × Finset String) :=
  [("methodology", ∅), ("field", ∅), ("empirical_approach", ∅)]

/-- The merged-result value matching the documented fallback defaults
"Empirical", "Public", "Descriptive/Observational" (the dict of
src/classify4.py lines 81 to 85). -/
def defaultsMerged : List (String × Finset String) :=
  [("methodology", {"Empirical"}),
   ("field", {"Public"}),
   ("empirical_approach", {"Descriptive/Observational"})]

/-- Embeds classify_paper (src/classify.py lines 147 to 169): a failed
download of a remote pdf returns the all-empty dict and the run goes
on; reading the pdf happens outside any try, so a reading failure
propagates (`none`); otherwise the extracted sections are chunked,
each chunk classified through classify_chunk, and the chunk candidates
merged. -/
def classify_paper (p : PaperRun) : Option (List (String × Finset String)) :=
  if isUrl p.pdfPath && !p.fetchOk then some emptyMerged
  else
    match p.pages with
    | none => none
    | some pages =>
      let lines := pySplitlines (buildText pages)
      let txt := extract_pdf_sections lines
      let chunks := chunk_text txt 1500
      let cands := (List.range chunks.length).map (fun i => classify_chunk p.parse (p.net i))
      some (merge_classifications cands)

/-- Embeds the batch loop over the papers list (src/classify.py lines
237 to 246, the same shape as src/main.py lines 8 to 18): papers are
classified one after the other and an uncaught exception in one paper
aborts the whole loop. -/
def runBatch : List PaperRun → Option (List (List (String × Finset String)))
  | [] => some []
  | p :: ps =>
    match classify_paper p with
    | none => none
    | some r =>
      match runBatch ps with
      | none => none
      | some rs => some (r :: rs)

/-- Concrete paper whose remote pdf fails to download. -/
def pFetchFail : PaperRun :=
  { pdfPath := "http://example.org/x.pdf"
    fetchOk := false
    pages := some []
    net := fun _ => HttpResult.exn
    parse := fun _ => none }

/-- Concrete paper with a local pdf that cannot be read. -/
def pReadFail : PaperRun :=
  { pdfPath := "pdfs/x.pdf"
    fetchOk := true
    pages := none
    net := fun _ => HttpResult.exn
    parse := fun _ => none }

/-! ## Helper lemmas about the aggregator -/

theorem mem_foldl_methodology (cl : List Candidate) (m : MergedSets) (x : String) :
    x ∈ (cl.foldl stepMerge m).methodology ↔
      x ∈ m.methodology ∨ ∃ c ∈ cl, x ∈ pyGet c "methodology" := by
  induction cl generalizing m with
  | nil => simp
  | cons c cl ih =>
    simp only [List.foldl_cons, ih, stepMerge, Finset.mem_union, List.mem_toFinset,
      List.mem_cons]
    constructor
    · rintro (⟨h | h⟩ | ⟨d, hd, hx⟩)
      · exact Or.inl h
      · exact Or.inr ⟨c, Or.inl rfl, h⟩
      · exact Or.inr ⟨d, Or.inr hd, hx⟩
    · rintro (h | ⟨d, (rfl | hd), hx⟩)
      · exact Or.inl (Or.inl h)
      · exact Or.inl (Or.inr hx)
      · exact Or.inr ⟨d, hd, hx⟩

theorem mem_foldl_field (cl : List Candidate) (m : MergedSets) (x : String) :
    x ∈ (cl.foldl stepMerge m).field ↔
      x ∈ m.field ∨ ∃ c ∈ cl, x ∈ pyGet c "field" := by
  induction cl generalizing m with
  | nil => simp
  | cons c cl ih =>
    simp only [List.foldl_cons, ih, stepMerge, Finset.mem_union, List.mem_toFinset,
      List.mem_cons]
    constructor
    · rintro (⟨h | h⟩ | ⟨d, hd, hx⟩)
      · exact Or.inl h
      · exact Or.inr ⟨c, Or.inl rfl, h⟩
      · exact Or.inr ⟨d, Or.inr hd, hx⟩
    · rintro (h | ⟨d, (rfl | hd), hx⟩)
      · exact Or.inl (Or.inl h)
      · exact Or.inl (Or.inr hx)
      · exact Or.inr ⟨d, hd, hx⟩

theorem mem_foldl_empirical (cl : List Candidate) (m : MergedSets) (x : String) :
    x ∈ (cl.foldl stepMerge m).empirical_approach ↔
      x ∈ m.empirical_approach ∨ ∃ c ∈ cl, x ∈ pyGet c "empirical_approach" := by
  induction cl generalizing m with
  | nil => simp
  | cons c cl ih =>
    simp only [List.foldl_cons, ih, stepMerge, Finset.mem_union, List.mem_toFinset,
      List.mem_cons]
    constructor
    · rintro (⟨h | h⟩ | ⟨d, hd, hx⟩)
      · exact Or.inl h
      · exact Or.inr ⟨c, Or.inl rfl, h⟩
      · exact Or.inr ⟨d, Or.inr hd, hx⟩
    · rintro (h | ⟨d, (rfl | hd), hx⟩)
      · exact Or.inl (Or.inl h)
      · exact Or.inl (Or.inr hx)
      · exact Or.inr ⟨d, hd, hx⟩

theorem mergedCategory_methodology (cl : List Candidate) :
    mergedCategory cl "methodology" = (cl.foldl stepMerge ⟨∅, ∅, ∅⟩).methodology := rfl

theorem mergedCategory_field (cl : List Candidate) :
    mergedCategory cl "field" = (cl.foldl stepMerge ⟨∅, ∅, ∅⟩).field := rfl

theorem mergedCategory_empirical (cl : List Candidate) :
    mergedCategory cl "empirical_approach" =
      (cl.foldl stepMerge ⟨∅, ∅, ∅⟩).empirical_approach := rfl

/-- Membership in a merged category is exactly contribution by some
candidate, for each of the three category keys. -/
theorem mem_mergedCategory (cl : List Candidate) (k : String) (x : String)
    (hk : k ∈ threeCats) :
    x ∈ mergedCategory cl k ↔ ∃ c ∈ cl, x ∈ pyGet c k := by
  simp only [threeCats, List.mem_cons, List.mem_singleton, List.not_mem_nil, or_false] at hk
  rcases hk with rfl | rfl | rfl
  · rw [mergedCategory_methodology, mem_foldl_methodology]; simp
  · rw [mergedCategory_field, mem_foldl_field]; simp
  · rw [mergedCategory_empirical, mem_foldl_empirical]; simp

/-- Folding the merge loop over a permuted candidate list produces the
same three label sets: the aggregation is order-insensitive at the
level of set contents.  The order in which Python `list(v)` would then
enumerate each set is implementation defined and outside this
development. -/
theorem merge_classifications_perm (cl cl' : List Candidate) (h : cl.Perm cl') :
    merge_classifications cl = merge_classifications cl' := by
  have hfold : cl.foldl stepMerge ⟨∅, ∅, ∅⟩ = cl'.foldl stepMerge ⟨∅, ∅, ∅⟩ := by
    ext x
    · simp [mem_foldl_methodology, h.mem_iff]
    · simp [mem_foldl_field, h.mem_iff]
    · simp [mem_foldl_empirical, h.mem_iff]
  simp [merge_classifications, hfold]

/-! ## Claim C1 -/

/-- Claim C1, counterexample: merging the empty sequence of candidates
returns the dict whose three categories are all empty, so no category
receives the documented fallback default and the non-emptiness the
claim states fails. -/
theorem merge_empty_no_fallback_cex :
    merge_classifications [] =
      [("methodology", (∅ : Finset String)), ("field", ∅), ("empirical_approach", ∅)] ∧
      mergedCategory [] "methodology" = ∅ := by
  constructor <;> rfl

/-- Claim C1, amended: merge_classifications returns the three
categories with each category the union of the corresponding label
lists of the candidates, and applies no fallback: a category of the
merged result is empty exactly when the list every candidate holds
for that category is empty, so the merge of the empty sequence is
all-empty. -/
theorem merge_category_empty_iff (cl : List Candidate) (k : String)
    (hk : k ∈ threeCats) :
    mergedCategory cl k = ∅ ↔ ∀ c ∈ cl, pyGet c k = [] := by
  rw [Finset.eq_empty_iff_forall_not_mem]
  constructor
  · intro h c hc
    by_contra hne
    obtain ⟨x, hx⟩ := List.exists_mem_of_ne_nil _ hne
    exact h x ((mem_mergedCategory cl k x hk).mpr ⟨c, hc, hx⟩)
  · intro h x hx
    rw [mem_mergedCategory cl k x hk] at hx
    obtain ⟨c, hc, hxc⟩ := hx
    rw [h c hc] at hxc
    simp at hxc

/-- Claim C1, witness at a concrete input. -/
theorem merge_category_empty_iff_witness :
    "methodology" ∈ threeCats ∧
      (mergedCategory [emptyC] "methodology" = ∅ ↔
        ∀ c ∈ [emptyC], pyGet c "methodology" = []) :=
  ⟨by decide, merge_category_empty_iff [emptyC] "methodology" (by decide)⟩

/-! ## Claim C2 -/

/-- Claim C2, counterexample: a candidate label outside the field
vocabulary is not dropped by the merge: "Bad-Label" survives into the
merged field category even though it is not an allowed field label. -/
theorem merge_keeps_invalid_label_cex :
    "Bad-Label" ∈ mergedCategory [badFieldCand] "field" ∧ "Bad-Label" ∉ FIELDS := by
  constructor
  · decide
  · decide

/-- Claim C2, amended: merge_classifications applies no vocabulary
filtering at all: a label belongs to a merged category exactly when
some candidate carries it there, whether or not it belongs to METHODS,
FIELDS or APPROACHES. -/
theorem merge_no_vocab_filter (cl : List Candidate) (k : String) (x : String)
    (hk : k ∈ threeCats) :
    x ∈ mergedCategory cl k ↔ ∃ c ∈ cl, x ∈ pyGet c k :=
  mem_mergedCategory cl k x hk

/-- Claim C2, witness at a concrete input. -/
theorem merge_no_vocab_filter_witness :
    "field" ∈ threeCats ∧
      ("Bad-Label" ∈ mergedCategory [badFieldCand] "field" ↔
        ∃ c ∈ [badFieldCand], "Bad-Label" ∈ pyGet c "field") :=
  ⟨by decide, merge_no_vocab_filter [badFieldCand] "field" "Bad-Label" (by decide)⟩

/-! ## Claim C10 -/

theorem pyGet_restrictCand (c : Candidate) :
    pyGet (restrictCand c) "methodology" = pyGet c "methodology" ∧
      pyGet (restrictCand c) "field" = pyGet c "field" ∧
      pyGet (restrictCand c) "empirical_approach" = pyGet c "empirical_approach" :=
  ⟨rfl, rfl, rfl⟩

theorem stepMerge_restrictCand (m : MergedSets) (c : Candidate) :
    stepMerge m (restrictCand c) = stepMerge m c := rfl

/-- Claim C10: the merged dict carries exactly the keys methodology,
field and empirical_approach in that order, and the merge reads
nothing else of a candidate: replacing every candidate by its
restriction to the three category keys, with missing keys as empty
lists and all other keys discarded, leaves the result unchanged. -/
theorem merge_keys_exact (cl : List Candidate) :
    (merge_classifications cl).map Prod.fst = threeCats ∧
      merge_classifications cl = merge_classifications (cl.map restrictCand) := by
  refine ⟨rfl, ?_⟩
  have hfold : ∀ (l : List Candidate) (m : MergedSets),
      l.foldl stepMerge m = (l.map restrictCand).foldl stepMerge m := by
    intro l
    induction l with
    | nil => intro m; rfl
    | cons c l ih =>
      intro m
      simp only [List.map_cons, List.foldl_cons, stepMerge_restrictCand]
      exact ih (stepMerge m c)
  simp only [merge_classifications]
  rw [hfold cl ⟨∅, ∅, ∅⟩]

/-! ## Helper lemmas about the retry loop -/

theorem call_groq4_throttle_block (parse : String → Option Candidate) :
    ∀ (ts rest : List HttpResult), (∀ a ∈ ts, isThrottle a = true) →
      call_groq4 parse (ts ++ rest) =
        (call_groq4 parse rest).map (fun p => (p.1 + 10 * ts.length, p.2)) := by
  intro ts
  induction ts with
  | nil =>
    intro rest _
    cases o : call_groq4 parse rest <;> simp [o]
  | cons a ts ih =>
    intro rest h
    have ha := h a (List.mem_cons_self a ts)
    cases a with
    | exn => simp [isThrottle] at ha
    | ok s c =>
      have hs : s = 429 := by simpa [isThrottle] using ha
      subst hs
      rw [List.cons_append]
      simp only [call_groq4, if_pos rfl]
      rw [ih rest (fun b hb => h b (List.mem_cons_of_mem _ hb))]
      cases o : call_groq4 parse rest with
      | none => simp
      | some p =>
        simp only [Option.map_some, List.length_cons]
        refine congrArg some (Prod.ext ?_ rfl)
        simp only
        omega

theorem call_groq3_throttle_block (parse : String → Option Candidate) :
    ∀ (ts rest : List HttpResult), (∀ a ∈ ts, isThrottle a = true) →
      call_groq3 parse (ts ++ rest) =
        (call_groq3 parse rest).map (fun p => (p.1 + 10 * ts.length, p.2)) := by
  intro ts
  induction ts with
  | nil =>
    intro rest _
    cases o : call_groq3 parse rest <;> simp [o]
  | cons a ts ih =>
    intro rest h
    have ha := h a (List.mem_cons_self a ts)
    cases a with
    | exn => simp [isThrottle] at ha
    | ok s c =>
      have hs : s = 429 := by simpa [isThrottle] using ha
      subst hs
      rw [List.cons_append]
      simp only [call_groq3, if_pos rfl]
      rw [ih rest (fun b hb => h b (List.mem_cons_of_mem _ hb))]
      cases o : call_groq3 parse rest with
      | none => simp
      | some p =>
        simp only [Option.map_some, List.length_cons]
        refine congrArg some (Prod.ext ?_ rfl)
        simp only
        omega

/-! ## Claim C9 -/

/-- Claim C9: a throttling signal (HTTP 429) makes both retrying
call_groq variants sleep a fixed 10 seconds and try again, forever:
any block of throttled attempts adds exactly 10 seconds each and is
otherwise invisible in the result, and a run of nothing but throttled
attempts never returns at all, so throttling never produces an error
outcome and never escapes the client. -/
theorem rate_limit_retry_spec (parse : String → Option Candidate)
    (ts rest : List HttpResult) (hts : ∀ a ∈ ts, isThrottle a = true) :
    call_groq4 parse (ts ++ rest) =
        (call_groq4 parse rest).map (fun p => (p.1 + 10 * ts.length, p.2)) ∧
      call_groq3 parse (ts ++ rest) =
        (call_groq3 parse rest).map (fun p => (p.1 + 10 * ts.length, p.2)) ∧
      call_groq4 parse ts = none ∧ call_groq3 parse ts = none := by
  refine ⟨call_groq4_throttle_block parse ts rest hts,
    call_groq3_throttle_block parse ts rest hts, ?_, ?_⟩
  · have h := call_groq4_throttle_block parse ts [] hts
    simpa [call_groq4] using h
  · have h := call_groq3_throttle_block parse ts [] hts
    simpa [call_groq3] using h

/-- Claim C9, witness at a concrete input: two throttled attempts
followed by a success cost 20 seconds of backoff and nothing else. -/
theorem rate_limit_retry_spec_witness :
    (∀ a ∈ [HttpResult.ok 429 "a", HttpResult.ok 429 "b"], isThrottle a = true) ∧
      (call_groq4 (fun _ => some emptyC)
          ([HttpResult.ok 429 "a", HttpResult.ok 429 "b"] ++ [HttpResult.ok 200 "r"]) =
          (call_groq4 (fun _ => some emptyC) [HttpResult.ok 200 "r"]).map
            (fun p => (p.1 + 10 * ([HttpResult.ok 429 "a", HttpResult.ok 429 "b"] : List HttpResult).length, p.2)) ∧
        call_groq3 (fun _ => some emptyC)
          ([HttpResult.ok 429 "a", HttpResult.ok 429 "b"] ++ [HttpResult.ok 200 "r"]) =
          (call_groq3 (fun _ => some emptyC) [HttpResult.ok 200 "r"]).map
            (fun p => (p.1 + 10 * ([HttpResult.ok 429 "a", HttpResult.ok 429 "b"] : List HttpResult).length, p.2)) ∧
        call_groq4 (fun _ => some emptyC) [HttpResult.ok 429 "a", HttpResult.ok 429 "b"] = none ∧
        call_groq3 (fun _ => some emptyC) [HttpResult.ok 429 "a", HttpResult.ok 429 "b"] = none) :=
  ⟨by decide,
    rate_limit_retry_spec (fun _ => some emptyC)
      [HttpResult.ok 429 "a", HttpResult.ok 429 "b"] [HttpResult.ok 200 "r"] (by decide)⟩

/-! ## Claim C3 -/

/-- Claim C3, counterexample: an authentication failure (HTTP 401, a
non-throttling transport failure) does not produce an error outcome:
call_groq of classify4 returns the default-label candidate, a
label-bearing value, and the run goes on. -/
theorem auth_failure_default_candidate_cex :
    call_groq4 (fun _ => none) [HttpResult.ok 401 "denied"] = some (0, groqDefaults) ∧
      pyGet groqDefaults "methodology" ≠ [] := by
  constructor
  · rfl
  · decide

/-- Claim C3, amended: a non-throttling transport failure never
propagates: call_groq of classify4 and classify3 catches the raised
HTTPError or RequestException and returns the default-label candidate,
and classify_chunk of classify.py catches it and returns the all-empty
candidate; no retry happens and the batch continues. -/
theorem transport_failure_returns_candidate (parse : String → Option Candidate)
    (s : Nat) (content : String) (rest : List HttpResult)
    (hs : raisesForStatus s) (h429 : s ≠ 429) :
    call_groq4 parse (HttpResult.ok s content :: rest) = some (0, groqDefaults) ∧
      call_groq3 parse (HttpResult.ok s content :: rest) = some (0, groqDefaults) ∧
      call_groq4 parse (HttpResult.exn :: rest) = some (0, groqDefaults) ∧
      classify_chunk parse (HttpResult.ok s content) = emptyC := by
  refine ⟨?_, ?_, rfl, ?_⟩
  · simp only [call_groq4, if_neg h429, if_pos hs]
  · simp only [call_groq3, if_neg h429, if_pos hs]
  · simp only [classify_chunk, if_pos hs]

/-- Claim C3, witness at a concrete input. -/
theorem transport_failure_returns_candidate_witness :
    (raisesForStatus 401 ∧ 401 ≠ 429) ∧
      (call_groq4 (fun _ => none) [HttpResult.ok 401 "denied"] = some (0, groqDefaults) ∧
        call_groq3 (fun _ => none) [HttpResult.ok 401 "denied"] = some (0, groqDefaults) ∧
        call_groq4 (fun _ => none) [HttpResult.exn] = some (0, groqDefaults) ∧
        classify_chunk (fun _ => none) (HttpResult.ok 401 "denied") = emptyC) :=
  ⟨⟨by decide, by decide⟩,
    transport_failure_returns_candidate (fun _ => none) 401 "denied" [] (by decide) (by decide)⟩

/-! ## Claim C5 -/

/-- Claim C5, counterexample: on a response whose content does not
parse as JSON, call_groq of classify4 returns the candidate with the
label "Error" in all three categories, which is neither the all-empty
sentinel nor the all-default sentinel the claim allows. -/
theorem malformed_json_error_sentinel_cex :
    call_groq4 (fun _ => none) [HttpResult.ok 200 "not json"] = some (0, errorSentinel) ∧
      errorSentinel ≠ emptyC ∧ errorSentinel ≠ groqDefaults := by
  refine ⟨rfl, by decide, by decide⟩

/-- Claim C5, amended: a model response whose content does not parse
as JSON never raises, but the sentinel is not one consistent policy:
classify4 returns the label "Error" in every category, classify3
returns the default labels, and classify_chunk of classify.py returns
the all-empty candidate. -/
theorem malformed_json_fixed_sentinels (parse : String → Option Candidate)
    (content : String) (rest : List HttpResult)
    (h4 : parse (stripContent4 content) = none)
    (hPy : parse (stripContentPy content) = none) :
    call_groq4 parse (HttpResult.ok 200 content :: rest) = some (0, errorSentinel) ∧
      call_groq3 parse (HttpResult.ok 200 content :: rest) = some (0, groqDefaults) ∧
      classify_chunk parse (HttpResult.ok 200 content) = emptyC := by
  have h429 : ¬(200 = 429) := by decide
  have hs : ¬ raisesForStatus 200 := by decide
  refine ⟨?_, ?_, ?_⟩
  · simp only [call_groq4, if_neg h429, if_neg hs, h4]
  · simp only [call_groq3, if_neg h429, if_neg hs, h4]
  · simp only [classify_chunk, if_neg hs, hPy]

/-- Claim C5, witness at a concrete input. -/
theorem malformed_json_fixed_sentinels_witness :
    ((fun (_ : String) => (none : Option Candidate)) (stripContent4 "oops") = none ∧
        (fun (_ : String) => (none : Option Candidate)) (stripContentPy "oops") = none) ∧
      (call_groq4 (fun _ => none) [HttpResult.ok 200 "oops"] = some (0, errorSentinel) ∧
        call_groq3 (fun _ => none) [HttpResult.ok 200 "oops"] = some (0, groqDefaults) ∧
        classify_chunk (fun _ => none) (HttpResult.ok 200 "oops") = emptyC) :=
  ⟨⟨rfl, rfl⟩, malformed_json_fixed_sentinels (fun _ => none) "oops" [] rfl rfl⟩

/-! ## Helper lemmas about the chunker -/

theorem chunksOf_nil {α : Type} (n : Nat) : chunksOf n ([] : List α) = [] := by
  rw [chunksOf]
  split <;> rfl

theorem chunksOfAux_fuel {α : Type} (n : Nat) (hn : n ≠ 0) :
    ∀ (f1 : Nat) (l : List α) (f2 : Nat), l.length ≤ f1 → l.length ≤ f2 →
      chunksOfAux n f1 l = chunksOfAux n f2 l := by
  intro f1
  induction f1 with
  | zero =>
    intro l f2 h1 _
    have hl0 : l = [] := List.eq_nil_of_length_eq_zero (Nat.le_zero.mp h1)
    subst hl0
    cases f2 <;> rfl
  | succ f ih =>
    intro l f2 h1 h2
    cases l with
    | nil => cases f2 <;> rfl
    | cons x xs =>
      cases f2 with
      | zero => simp at h2
      | succ g =>
        show (x :: xs).take n :: chunksOfAux n f ((x :: xs).drop n) =
          (x :: xs).take n :: chunksOfAux n g ((x :: xs).drop n)
        congr 1
        apply ih
        · simp only [List.length_drop, List.length_cons] at *
          omega
        · simp only [List.length_drop, List.length_cons] at *
          omega

theorem chunksOf_cons {α : Type} (n : Nat) (hn : n ≠ 0) (x : α) (xs : List α) :
    chunksOf n (x :: xs) = (x :: xs).take n :: chunksOf n ((x :: xs).drop n) := by
  rw [chunksOf, chunksOf, if_neg hn, if_neg hn]
  show (x :: xs).take n :: chunksOfAux n xs.length ((x :: xs).drop n) = _
  congr 1
  apply chunksOfAux_fuel n hn
  · simp only [List.length_drop, List.length_cons]
    omega
  · exact Nat.le_refl _

theorem chunksOf_length_aux {α : Type} (n : Nat) (hn : 0 < n) :
    ∀ (fuel : Nat) (l : List α), l.length ≤ fuel →
      (chunksOf n l).length = (l.length + n - 1) / n := by
  intro fuel
  induction fuel with
  | zero =>
    intro l hl
    have hl0 : l = [] := List.eq_nil_of_length_eq_zero (Nat.le_zero.mp hl)
    subst hl0
    rw [chunksOf_nil]
    simp only [List.length_nil, Nat.zero_add]
    rw [Nat.div_eq_of_lt (by omega)]
  | succ f ih =>
    intro l hl
    cases l with
    | nil =>
      rw [chunksOf_nil]
      simp only [List.length_nil, Nat.zero_add]
      rw [Nat.div_eq_of_lt (by omega)]
    | cons x xs =>
      rw [chunksOf_cons n (by omega) x xs]
      simp only [List.length_cons, List.length_drop]
      rw [ih _ (by simp only [List.length_drop, List.length_cons] at *; omega)]
      simp only [List.length_drop, List.length_cons]
      rcases le_or_lt (xs.length + 1) n with hLn | hLn
      · have h1 : xs.length + 1 - n = 0 := by omega
        rw [h1]
        rw [Nat.div_eq_of_lt (by omega)]
        have hmod : xs.length + 1 + n - 1 = xs.length + n := by omega
        have hxn : xs.length < n := by omega
        rw [hmod, Nat.add_div_right _ hn, Nat.div_eq_of_lt hxn]
      · have h2 : xs.length + 1 - n + n - 1 = xs.length + 1 - 1 := by omega
        have h3 : xs.length + 1 + n - 1 = (xs.length + 1 - 1) + n := by omega
        rw [h2, h3, Nat.add_div_right _ hn]

theorem chunksOf_length {α : Type} (n : Nat) (hn : 0 < n) (l : List α) :
    (chunksOf n l).length = (l.length + n - 1) / n :=
  chunksOf_length_aux n hn l.length l (Nat.le_refl _)

theorem chunksOf_flatten_aux {α : Type} (n : Nat) (hn : 0 < n) :
    ∀ (fuel : Nat) (l : List α), l.length ≤ fuel → (chunksOf n l).flatten = l := by
  intro fuel
  induction fuel with
  | zero =>
    intro l hl
    have hl0 : l = [] := List.eq_nil_of_length_eq_zero (Nat.le_zero.mp hl)
    subst hl0
    rw [chunksOf_nil]
    rfl
  | succ f ih =>
    intro l hl
    cases l with
    | nil => rw [chunksOf_nil]; rfl
    | cons x xs =>
      rw [chunksOf_cons n (by omega) x xs]
      rw [List.flatten_cons]
      rw [ih _ (by simp only [List.length_drop, List.length_cons] at *; omega)]
      exact List.take_append_drop n (x :: xs)

theorem chunksOf_flatten {α : Type} (n : Nat) (hn : 0 < n) (l : List α) :
    (chunksOf n l).flatten = l :=
  chunksOf_flatten_aux n hn l.length l (Nat.le_refl _)

theorem chunksOf_ne_nil_aux {α : Type} (n : Nat) (hn : 0 < n) :
    ∀ (fuel : Nat) (l : List α), l.length ≤ fuel →
      ∀ g ∈ chunksOf n l, g ≠ [] := by
  intro fuel
  induction fuel with
  | zero =>
    intro l hl
    have hl0 : l = [] := List.eq_nil_of_length_eq_zero (Nat.le_zero.mp hl)
    subst hl0
    rw [chunksOf_nil]
    intro g hg
    simp at hg
  | succ f ih =>
    intro l hl
    cases l with
    | nil =>
      rw [chunksOf_nil]
      intro g hg
      simp at hg
    | cons x xs =>
      rw [chunksOf_cons n (by omega) x xs]
      intro g hg
      rcases List.mem_cons.mp hg with rfl | hmem
      · intro hnil
        rw [List.take_eq_nil_iff] at hnil
        rcases hnil with h | h <;> simp_all
      · exact ih _ (by simp only [List.length_drop, List.length_cons] at *; omega) g hmem

theorem chunksOf_ne_nil {α : Type} (n : Nat) (hn : 0 < n) (l : List α) :
    ∀ g ∈ chunksOf n l, g ≠ [] :=
  chunksOf_ne_nil_aux n hn l.length l (Nat.le_refl _)

theorem pyJoin_foldl (sep : String) :
    ∀ (t : List String) (a b : String),
      t.foldl (fun acc y => acc ++ sep ++ y) (a ++ b) =
        a ++ t.foldl (fun acc y => acc ++ sep ++ y) b := by
  intro t
  induction t with
  | nil => intro a b; rfl
  | cons y t ih =>
    intro a b
    simp only [List.foldl_cons]
    rw [show a ++ b ++ sep ++ y = a ++ (b ++ sep ++ y) by
      simp only [String.append_assoc]]
    exact ih a (b ++ sep ++ y)

theorem pyJoin_cons_of_ne_nil (sep x : String) (ys : List String) (h : ys ≠ []) :
    pyJoin sep (x :: ys) = x ++ sep ++ pyJoin sep ys := by
  cases ys with
  | nil => exact absurd rfl h
  | cons y t =>
    show (y :: t).foldl (fun acc z => acc ++ sep ++ z) x = x ++ sep ++ pyJoin sep (y :: t)
    simp only [List.foldl_cons]
    rw [show x ++ sep ++ y = (x ++ sep) ++ y from rfl, pyJoin_foldl sep t (x ++ sep) y]
    rfl

theorem pyJoin_append (sep : String) :
    ∀ (xs ys : List String), xs ≠ [] → ys ≠ [] →
      pyJoin sep (xs ++ ys) = pyJoin sep xs ++ sep ++ pyJoin sep ys := by
  intro xs
  induction xs with
  | nil => intro ys h; exact absurd rfl h
  | cons x xs ih =>
    intro ys _ hys
    cases xs with
    | nil => simpa using pyJoin_cons_of_ne_nil sep x ys hys
    | cons z t =>
      rw [List.cons_append,
        pyJoin_cons_of_ne_nil sep x ((z :: t) ++ ys) (by simp),
        pyJoin_cons_of_ne_nil sep x (z :: t) (by simp),
        ih ys (by simp) hys]
      simp only [String.append_assoc]

theorem pyJoin_groups (sep : String) :
    ∀ (gs : List (List String)), (∀ g ∈ gs, g ≠ []) →
      pyJoin sep (gs.map (pyJoin sep)) = pyJoin sep gs.flatten := by
  intro gs
  induction gs with
  | nil => intro _; rfl
  | cons g gs ih =>
    intro h
    have hg : g ≠ [] := h g (List.mem_cons_self g gs)
    have hrest : ∀ d ∈ gs, d ≠ [] := fun d hd => h d (List.mem_cons_of_mem _ hd)
    by_cases hgs : gs = []
    · subst hgs
      simp [pyJoin]
    · have hjoin_ne : gs.flatten ≠ [] := by
        intro hcon
        obtain ⟨g2, hg2⟩ := List.exists_mem_of_ne_nil gs hgs
        exact hrest g2 hg2 ((List.flatten_eq_nil_iff.mp hcon) g2 hg2)
      have hmap_ne : gs.map (pyJoin sep) ≠ [] := by
        intro hcon
        exact hgs (List.map_eq_nil_iff.mp hcon)
      rw [List.map_cons, List.flatten_cons,
        pyJoin_cons_of_ne_nil sep (pyJoin sep g) (gs.map (pyJoin sep)) hmap_ne,
        ih hrest, pyJoin_append sep g gs.flatten hg hjoin_ne]

/-! ## Claim C6 -/

/-- Claim C6, counterexample: the chunker is word-based, not
character-based.  On the excerpt of two words separated by two spaces,
the single chunk normalizes the whitespace, so concatenating the
chunks does not reproduce the excerpt; and with chunk size 2 the chunk
count is 1, not the claimed ceil of character length over chunk size,
which is 2. -/
theorem chunk_not_char_windows_cex :
    chunk_text "a  b" 1500 = ["a b"] ∧
      pyJoin "" (chunk_text "a  b" 1500) ≠ "a  b" ∧
      (chunk_text "a  b" 2).length = 1 ∧
      ("a  b".length + 2 - 1) / 2 = 2 := by
  refine ⟨by decide, by decide, by decide, by decide⟩

/-- Claim C6, amended: chunk_text splits the excerpt into
whitespace-delimited words and emits non-overlapping groups of N words
joined by single spaces: the chunk count is ceil of the word count
over N, joining the chunks with single spaces yields exactly the
single-space join of the words (the whitespace-normalized excerpt),
and an excerpt with no words yields zero chunks. -/
theorem chunk_text_word_spec (s : String) (n : Nat) (hn : 0 < n) :
    (chunk_text s n).length = ((pyWords s).length + n - 1) / n ∧
      pyJoin " " (chunk_text s n) = pyJoin " " (pyWords s) ∧
      (pyWords s = [] → chunk_text s n = []) := by
  refine ⟨?_, ?_, ?_⟩
  · rw [chunk_text, List.length_map]
    exact chunksOf_length n hn (pyWords s)
  · rw [chunk_text, pyJoin_groups " " (chunksOf n (pyWords s)) (chunksOf_ne_nil n hn _),
      chunksOf_flatten n hn]
  · intro h
    rw [chunk_text, h, chunksOf_nil]
    rfl

/-- Claim C6, witness at a concrete input: three words, chunk size
two. -/
theorem chunk_text_word_spec_witness :
    0 < 2 ∧
      ((chunk_text "aa bb cc" 2).length = ((pyWords "aa bb cc").length + 2 - 1) / 2 ∧
        pyJoin " " (chunk_text "aa bb cc" 2) = pyJoin " " (pyWords "aa bb cc") ∧
        (pyWords "aa bb cc" = [] → chunk_text "aa bb cc" 2 = [])) :=
  ⟨by decide, chunk_text_word_spec "aa bb cc" 2 (by decide)⟩

/-! ## Claim C7 -/

set_option maxRecDepth 10000 in
/-- Claim C7, counterexample: on the 500-line input with the abstract
marker on line 0, the introduction marker on line 40 and the
conclusion marker on line 300, the extractor does not return
lines[0:40] ++ lines[40:240] ++ lines[300:450]: it skips the abstract
marker line itself, takes the first 200 lines of the whole document
rather than 200 lines from the introduction marker, and takes every
line from the conclusion marker to the end rather than 150; moreover,
on a one-line input with no marker at all the excerpt is not empty. -/
theorem extract_scenario_mismatch_cex :
    findMarkerIdx "abstract" cexLines = some 0 ∧
      findMarkerIdx "introduction" cexLines = some 40 ∧
      findMarkerIdx "conclusion" cexLines = some 300 ∧
      cexLines.length = 500 ∧
      extract_section_lines cexLines ≠
        cexLines.take 40 ++ ((cexLines.drop 40).take 200) ++ ((cexLines.drop 300).take 150) ∧
      findMarkerIdx "abstract" ["xy"] = none ∧
      findMarkerIdx "introduction" ["xy"] = none ∧
      findMarkerIdx "conclusion" ["xy"] = none ∧
      extract_section_lines ["xy"] ≠ [] := by
  refine ⟨by decide, by decide, by decide, by decide, by decide, by decide, by decide,
    by decide, by decide⟩

/-- Claim C7, amended: when all three markers are found the extractor
returns lines[abstract_start+1 : intro_start] ++ lines[0:200] ++
lines[conclusion_start:], with no 3000-line cap; when no marker is
found it returns lines[:50] ++ lines[:200] ++ lines[-50:], which is
non-empty whenever the input has at least one line, not empty as the
claim states. -/
theorem extract_section_lines_spec (lines : List String) (a i c : Nat) :
    (findMarkerIdx "abstract" lines = some a →
      findMarkerIdx "introduction" lines = some i →
      findMarkerIdx "conclusion" lines = some c →
      extract_section_lines lines =
        ((lines.drop (a + 1)).take (i - (a + 1))) ++ lines.take 200 ++ lines.drop c) ∧
      (findMarkerIdx "abstract" lines = none →
        findMarkerIdx "introduction" lines = none →
        findMarkerIdx "conclusion" lines = none →
        extract_section_lines lines =
            lines.take 50 ++ lines.take 200 ++ lines.drop (lines.length - 50) ∧
          (lines ≠ [] → extract_section_lines lines ≠ [])) := by
  constructor
  · intro ha hi hc
    simp only [extract_section_lines, ha, hi, hc]
  · intro ha hi hc
    have heq : extract_section_lines lines =
        lines.take 50 ++ lines.take 200 ++ lines.drop (lines.length - 50) := by
      simp only [extract_section_lines, ha, hi, hc]
    refine ⟨heq, ?_⟩
    intro hne hcon
    rw [heq] at hcon
    rcases List.append_eq_nil.mp hcon with ⟨h12, _⟩
    rcases List.append_eq_nil.mp h12 with ⟨_, h2⟩
    rw [List.take_eq_nil_iff] at h2
    rcases h2 with h2 | h2
    · exact absurd h2 (by norm_num)
    · exact hne h2

/-- Concrete six-line input where the three markers sit on lines 0, 2
and 4. -/
def wlines : List String :=
  ["Abstract", "x", "Introduction", "y", "Conclusion", "z"]

/-- Claim C7, witness at concrete inputs for both marker situations. -/
theorem extract_section_lines_spec_witness :
    (findMarkerIdx "abstract" wlines = some 0 ∧
        findMarkerIdx "introduction" wlines = some 2 ∧
        findMarkerIdx "conclusion" wlines = some 4 ∧
        extract_section_lines wlines =
          ((wlines.drop (0 + 1)).take (2 - (0 + 1))) ++ wlines.take 200 ++ wlines.drop 4) ∧
      (extract_section_lines ["pp", "qq"] =
          ["pp", "qq"].take 50 ++ ["pp", "qq"].take 200 ++
            ["pp", "qq"].drop (["pp", "qq"].length - 50) ∧
        (["pp", "qq"] ≠ [] → extract_section_lines ["pp", "qq"] ≠ [])) :=
  ⟨⟨by decide, by decide, by decide,
      (extract_section_lines_spec wlines 0 2 4).1 (by decide) (by decide) (by decide)⟩,
    (extract_section_lines_spec ["pp", "qq"] 0 0 0).2 (by decide) (by decide) (by decide)⟩

/-! ## Claim C4 -/

/-- Claim C4, counterexample: a paper whose pdf download fails is
degraded to the all-empty dict, not to the documented default labels;
and a paper whose pdf cannot be read makes the whole batch abort
rather than continue. -/
theorem pdf_failure_empty_and_abort_cex :
    classify_paper pFetchFail = some emptyMerged ∧
      emptyMerged ≠ defaultsMerged ∧
      runBatch [pReadFail] = none := by
  refine ⟨by decide, by decide, by decide⟩

/-- Claim C4, amended: only the download of a remote pdf is guarded: a
failed download degrades the paper to the all-empty dict (not the
default labels) and the run continues, while a pdf that cannot be
opened or read raises out of classify_paper and aborts the batch. -/
theorem pdf_failure_behavior (p : PaperRun) :
    (isUrl p.pdfPath = true → p.fetchOk = false → classify_paper p = some emptyMerged) ∧
      (p.pages = none → (isUrl p.pdfPath = false ∨ p.fetchOk = true) →
        classify_paper p = none ∧ runBatch [p] = none) := by
  constructor
  · intro hu hf
    simp [classify_paper, hu, hf]
  · intro hp hor
    have hcond : (isUrl p.pdfPath && !p.fetchOk) = false := by
      rcases hor with h | h <;> simp [h]
    have hcp : classify_paper p = none := by
      simp [classify_paper, hcond, hp]
    exact ⟨hcp, by simp [runBatch, hcp]⟩

/-- Claim C4, witness at the two concrete papers. -/
theorem pdf_failure_behavior_witness :
    (isUrl pFetchFail.pdfPath = true ∧ pFetchFail.fetchOk = false ∧
        classify_paper pFetchFail = some emptyMerged) ∧
      (pReadFail.pages = none ∧ isUrl pReadFail.pdfPath = false ∧
        (classify_paper pReadFail = none ∧ runBatch [pReadFail] = none)) :=
  ⟨⟨by decide, by decide, (pdf_failure_behavior pFetchFail).1 (by decide) (by decide)⟩,
    ⟨by decide, by decide,
      (pdf_failure_behavior pReadFail).2 (by decide) (Or.inl (by decide))⟩⟩

end EconPipeline
